import Mathlib

/-!
# Verification of the ArxivDigest multi-stage filtering pipeline

A shallow embedding of the core of the ArxivDigest-Reimagined repository:
the document fetcher's retry loop (`src/fetcher/html_crawler.py`), the LLM
batch client (`src/llm/async_client.py`), the stage filters
(`backend/src/filter/stage1_filter.py` and the earlier
`src/filter/stage1_filter.py`), the pipeline orchestrator
(`backend/src/filter/pipeline.py`), the cache key and configuration
fingerprint (`backend/src/cache/cache_manager.py`, `backend/main.py`),
and the HTML-to-text extractor (`backend/src/parser/html_cleaner.py`).

Python strings are modelled as `List Char` (a Python `str` is a sequence of
code points), floats that only ever hold scores/thresholds as `ℚ`, and
fallible operations as `Option`/`Except`.  Awaited network calls are
modelled by explicit outcome functions passed to the embedded code, and
per-call traces (attempt counts, sleeps, cache writes, submitted batches)
are returned alongside the result so that theorems can speak about what
the code did, not only about what it returned.
-/

set_option autoImplicit false
set_option maxRecDepth 1000000

namespace ArxivDigest

/-- Python `str` is a sequence of unicode code points. -/
abbrev Str := List Char

/-! ## Document fetcher (`src/fetcher/html_crawler.py`)

`ArxivHTMLCrawler.fetch_html` loops `for attempt in range(self.max_retries)`.
Each iteration performs one HTTP GET, whose result we model as a
`FetchOutcome` delivered by a `responder` function indexed by the attempt
number.  `_fetch_with_session` returns the body on HTTP 200 and `None` on
404 or any other status; `fetch_html` returns that value immediately
(`return await self._fetch_with_session(...)`).  `TimeoutError` and
`aiohttp.ClientError` are caught and retried after a sleep of
`retry_delay` seconds (the sleep is skipped on the last attempt); any
other exception breaks out of the loop, which then returns `None`. -/

/-- Outcome of one HTTP GET attempt inside `fetch_html`. -/
inductive FetchOutcome where
  /-- HTTP 200 with a body. -/
  | success (html : Str)
  /-- HTTP 404: the paper has no HTML version. -/
  | notFound
  /-- Any other HTTP status (e.g. 500). -/
  | httpOther (status : Nat)
  /-- `TimeoutError` raised by the transport. -/
  | timeout
  /-- `aiohttp.ClientError` raised by the transport. -/
  | clientError
  /-- Any other unexpected exception. -/
  | unexpected
  deriving DecidableEq, Repr

/-- What one call of `fetch_html` did: its returned value, the number of
HTTP attempts actually made, and the list of sleeps performed between
attempts (each entry is the fixed `retry_delay`). -/
structure FetchResult where
  result : Option Str
  attempts : Nat
  sleeps : List ℚ
  deriving DecidableEq, Repr

/-- The retry loop of `fetch_html`, starting at attempt index `i` with
`remaining` iterations left (`remaining = max_retries - i`).  Mirrors the
`for attempt in range(self.max_retries)` body: a non-exceptional response
(200/404/other status) is returned immediately; `TimeoutError` and
`ClientError` sleep `retry_delay` if `attempt < max_retries - 1` (that is,
if at least two iterations remain) and retry; an unexpected error breaks;
a finished loop returns `None`. -/
def fetchAux (responder : Nat → FetchOutcome) (retryDelay : ℚ) :
    Nat → Nat → FetchResult
  | i, 0 => { result := none, attempts := i, sleeps := [] }
  | i, remaining + 1 =>
    match responder i with
    | .success html => { result := some html, attempts := i + 1, sleeps := [] }
    | .notFound => { result := none, attempts := i + 1, sleeps := [] }
    | .httpOther _ => { result := none, attempts := i + 1, sleeps := [] }
    | .unexpected => { result := none, attempts := i + 1, sleeps := [] }
    | .timeout =>
      let r := fetchAux responder retryDelay (i + 1) remaining
      { result := r.result, attempts := r.attempts,
        sleeps := if remaining ≥ 1 then retryDelay :: r.sleeps else r.sleeps }
    | .clientError =>
      let r := fetchAux responder retryDelay (i + 1) remaining
      { result := r.result, attempts := r.attempts,
        sleeps := if remaining ≥ 1 then retryDelay :: r.sleeps else r.sleeps }

/-- `ArxivHTMLCrawler.fetch_html`, as a function of the configured
`max_retries`, `retry_delay` and the per-attempt outcomes. -/
def fetch_html (maxRetries : Nat) (retryDelay : ℚ)
    (responder : Nat → FetchOutcome) : FetchResult :=
  fetchAux responder retryDelay 0 maxRetries

/-- One unfolding step of the retry loop when the current attempt times
out: the loop sleeps exactly when at least one iteration remains. -/
theorem fetchAux_timeout_step (responder : Nat → FetchOutcome) (retryDelay : ℚ)
    (i rem : Nat) (h0 : responder i = .timeout) :
    fetchAux responder retryDelay i (rem + 1) =
      { result := (fetchAux responder retryDelay (i + 1) rem).result,
        attempts := (fetchAux responder retryDelay (i + 1) rem).attempts,
        sleeps :=
          if 1 ≤ rem then
            retryDelay :: (fetchAux responder retryDelay (i + 1) rem).sleeps
          else (fetchAux responder retryDelay (i + 1) rem).sleeps } := by
  simp [fetchAux, h0]

/-- If every attempt in the window `[i, i + remaining)` times out, the
retry loop makes all `remaining` attempts, sleeps between consecutive
attempts (`remaining - 1` sleeps), and returns `None`. -/
theorem fetchAux_all_timeout (responder : Nat → FetchOutcome) (retryDelay : ℚ) :
    ∀ (remaining i : Nat),
      (∀ j, i ≤ j → j < i + remaining → responder j = .timeout) →
      fetchAux responder retryDelay i remaining =
        { result := none, attempts := i + remaining,
          sleeps := List.replicate (remaining - 1) retryDelay } := by
  intro remaining
  induction remaining with
  | zero => intro i _; simp [fetchAux]
  | succ rem ih =>
    intro i h
    have h0 : responder i = .timeout := h i (Nat.le_refl i) (by omega)
    have hrec := ih (i + 1) (fun j hj1 hj2 => h j (by omega) (by omega))
    rw [fetchAux_timeout_step responder retryDelay i rem h0, hrec]
    rcases Nat.eq_zero_or_pos rem with hz | hp
    · subst hz; simp
    · obtain ⟨k, rfl⟩ : ∃ k, rem = k + 1 := ⟨rem - 1, by omega⟩
      simp only [FetchResult.mk.injEq, if_pos (by omega : 1 ≤ k + 1)]
      exact ⟨trivial, by omega, by simp [List.replicate_succ]⟩

/-- C7: a 404 yields an absent result after a single attempt with no
retries and no sleeps; if every attempt times out, the loop returns an
absent result only after exactly `max_retries` attempts, with the fixed
`retry_delay` slept between consecutive attempts. -/
theorem fetch_notFound_immediate_and_timeout_exhausts
    (maxRetries : Nat) (retryDelay : ℚ) (responder : Nat → FetchOutcome)
    (hmax : 1 ≤ maxRetries) :
    (responder 0 = .notFound →
      fetch_html maxRetries retryDelay responder =
        { result := none, attempts := 1, sleeps := [] }) ∧
    ((∀ j, j < maxRetries → responder j = .timeout) →
      fetch_html maxRetries retryDelay responder =
        { result := none, attempts := maxRetries,
          sleeps := List.replicate (maxRetries - 1) retryDelay }) := by
  constructor
  · intro h0
    obtain ⟨m, rfl⟩ : ∃ m, maxRetries = m + 1 :=
      ⟨maxRetries - 1, by omega⟩
    simp [fetch_html, fetchAux, h0]
  · intro h
    have := fetchAux_all_timeout responder retryDelay maxRetries 0
      (fun j _ hj => h j (by omega))
    simpa [fetch_html] using this

/-- Witness for the C7 theorem at `max_retries = 3`, `retry_delay = 1`:
a 404 on the first attempt gives one attempt and no sleeps; three
timeouts give three attempts and two sleeps. -/
theorem fetch_notFound_immediate_and_timeout_exhausts_witness :
    fetch_html 3 1 (fun _ => FetchOutcome.notFound) =
      { result := none, attempts := 1, sleeps := [] } ∧
    fetch_html 3 1 (fun _ => FetchOutcome.timeout) =
      { result := none, attempts := 3, sleeps := [1, 1] } :=
  ⟨(fetch_notFound_immediate_and_timeout_exhausts 3 1 _ (by decide)).1 rfl,
   (fetch_notFound_immediate_and_timeout_exhausts 3 1 _ (by decide)).2
     (fun _ _ => rfl)⟩

/-- C10: an HTTP status other than 200/404 (e.g. 500) that raises no
exception yields an absent result immediately after the first attempt,
with no retries and no sleeps; and whenever the loop makes a second
attempt at all, the first attempt must have been a timeout or a client
connection error — no other outcome triggers the retry loop. -/
theorem fetch_other_status_no_retry
    (maxRetries : Nat) (retryDelay : ℚ) (responder : Nat → FetchOutcome)
    (status : Nat) (hmax : 1 ≤ maxRetries) :
    (responder 0 = .httpOther status →
      fetch_html maxRetries retryDelay responder =
        { result := none, attempts := 1, sleeps := [] }) ∧
    (2 ≤ (fetch_html maxRetries retryDelay responder).attempts →
      responder 0 = .timeout ∨ responder 0 = .clientError) := by
  obtain ⟨m, rfl⟩ : ∃ m, maxRetries = m + 1 := ⟨maxRetries - 1, by omega⟩
  constructor
  · intro h0
    simp [fetch_html, fetchAux, h0]
  · intro hatt
    cases hr : responder 0 with
    | success html => simp [fetch_html, fetchAux, hr] at hatt
    | notFound => simp [fetch_html, fetchAux, hr] at hatt
    | httpOther s => simp [fetch_html, fetchAux, hr] at hatt
    | unexpected => simp [fetch_html, fetchAux, hr] at hatt
    | timeout => exact Or.inl rfl
    | clientError => exact Or.inr rfl

/-- Witness for the C10 theorem: a 500 response at `max_retries = 3`
gives one attempt and no sleeps, and a run whose first outcome is a
timeout indeed reaches a second attempt only through the timeout branch. -/
theorem fetch_other_status_no_retry_witness :
    fetch_html 3 1 (fun _ => FetchOutcome.httpOther 500) =
      { result := none, attempts := 1, sleeps := [] } ∧
    ((fun _ => FetchOutcome.timeout) 0 = FetchOutcome.timeout ∨
      (fun _ => FetchOutcome.timeout) 0 = FetchOutcome.clientError) :=
  ⟨(fetch_other_status_no_retry 3 1 (fun _ => FetchOutcome.httpOther 500) 500
      (by decide)).1 rfl,
   (fetch_other_status_no_retry 3 1 (fun _ => FetchOutcome.timeout) 500
      (by decide)).2 (by decide)⟩

/-! ## LLM data model (`backend/src/llm/schemas.py`, `backend/src/llm/cost_calculator.py`) -/

/-- One chat message: a role-tagged text turn. -/
structure Msg where
  role : Str
  content : Str
  deriving DecidableEq, Repr

/-- `Stage1Result` (backend): the LLM's structured output for stage 1,
a relevance score in [0,1] and an optional free-text rationale. -/
structure Stage1Result where
  score : ℚ
  reasoning : Option Str
  deriving DecidableEq, Repr

/-- `UsageInfo`: token usage counters (all keys optional). -/
structure UsageInfo where
  prompt_tokens : Option Nat
  completion_tokens : Option Nat
  total_tokens : Option Nat
  deriving DecidableEq, Repr

/-- `CostInfo`: estimated monetary cost and its currency. -/
structure CostInfo where
  estimated_cost : ℚ
  currency : Str
  deriving DecidableEq, Repr

/-- The dict built by `prepare_result_with_conversation` (and cached /
returned by the backend stage filters). -/
structure ResultDict where
  score : ℚ
  reasoning : Option Str
  pass_filter : Bool
  usage : Option UsageInfo
  estimated_cost : Option ℚ
  estimated_cost_currency : Option Str
  messages : List Msg
  deriving DecidableEq, Repr

/-- `add_pass_filter` (backend `schemas.py`): dump the LLM result and add
`pass_filter = (score >= threshold)`. -/
def add_pass_filter (result : Stage1Result) (threshold : ℚ) : ResultDict :=
  { score := result.score, reasoning := result.reasoning,
    pass_filter := decide (threshold ≤ result.score),
    usage := none, estimated_cost := none, estimated_cost_currency := none,
    messages := [] }

/-- `prepare_result_with_conversation` (backend `schemas.py`): extend the
`add_pass_filter` dict with usage, cost, and the conversation history
ending in the assistant turn.  `dumpRes` stands for pydantic's
`model_dump_json` (library behaviour, passed in as a parameter). -/
def prepare_result_with_conversation (dumpRes : Stage1Result → Str)
    (result : Stage1Result) (threshold : ℚ) (messages : List Msg)
    (usage : Option UsageInfo) (costInfo : Option CostInfo) : ResultDict :=
  let d := add_pass_filter result threshold
  { d with
    usage := usage,
    estimated_cost := costInfo.map (·.estimated_cost),
    estimated_cost_currency := costInfo.map (·.currency),
    messages := messages ++ [⟨("assistant").data, dumpRes result⟩] }

/-- `AsyncLLMClient.build_stage1_messages`: system prompt text. -/
def stage1SystemMessage : Str :=
  ("You are an expert at quickly screening academic papers for relevance.\nYour task is to determine if a paper is potentially relevant based ONLY on its title and categories.\nThis is a fast preliminary filter - be generous in passing papers that might be relevant.\nRespond with a boolean pass_filter and a score (0-1).").data

/-- `AsyncLLMClient.build_stage1_messages`: the stage-1 prompt built from
title, categories and the user's filtering criteria. -/
def build_stage1_messages (title : Str) (categories : List Str)
    (userPrompt : Str) : List Msg :=
  [⟨("system").data, stage1SystemMessage⟩,
   ⟨("user").data,
     ("User\x27s interests: ").data ++ userPrompt ++
     ("\n\nPaper Information:\n- Title: ").data ++ title ++
     ("\n- Categories: ").data ++ List.intercalate (", ").data categories ++
     ("\n\nIs this paper potentially relevant? Provide a quick assessment.").data⟩]

/-! ## Cache keys (`backend/src/cache/cache_manager.py`) -/

/-- `CacheManager._generate_key`: `paper_id:config_hash` when a truthy
(non-`None`, non-empty) config hash is present, else just `paper_id`. -/
def generate_key (paperId : Str) (configHash : Option Str) : Str :=
  match configHash with
  | some h => if h = [] then paperId else paperId ++ (":").data ++ h
  | none => paperId

/-! ## Documents -/

/-- The paper record fields consumed by stage 1. -/
structure Paper where
  id : Str
  title : Str
  categories : List Str
  deriving DecidableEq, Repr

/-! ## Backend `Stage1Filter.filter_batch`
(`backend/src/filter/stage1_filter.py`)

The backend `AsyncLLMClient` is injected into the filter; its
`complete_batch` (whose source file is absent from the repository
snapshot — only its callers and re-export are present) is modelled from
the spec as an order-preserving list with one entry per prompt, `none`
marking a per-item failure ("nulls matching dropped indices", spec
§4.4).  The filter's loop body `prepare_result_with_conversation(result,
...)` calls `result.model_dump()`, so a `none` entry raises
`AttributeError`, and `zip(..., strict=True)` raises `ValueError` if the
returned list has a different length than the submitted batch. -/

/-- One `complete_batch` entry: `(result, usage, cost_info)` on success,
`none` for a failed item. -/
abbrev BatchOutcome := Option (Stage1Result × Option UsageInfo × Option CostInfo)

/-- The cache-partitioning loop at the top of `filter_batch`: walk the
papers in order, appending cache hits to `cached_results` and misses to
`uncached_papers`. -/
def partitionCached {α : Type} (cacheGet : Str → Option α)
    (configHash : Option Str) : List Paper → List (Paper × α) × List Paper
  | [] => ([], [])
  | p :: rest =>
    let (c, u) := partitionCached cacheGet configHash rest
    match cacheGet (generate_key p.id configHash) with
    | some d => ((p, d) :: c, u)
    | none => (c, p :: u)

/-- The evaluation loop over `zip(uncached_papers, batch_messages,
results, strict=True)`: each successful triple is turned into a result
dict, written to the cache, and appended; the first `none` triple raises
(`result.model_dump()` on `None`).  Returns the cache writes performed
before the failure together with the outcome. -/
def processEvaluated (dumpRes : Stage1Result → Str) (threshold : ℚ)
    (configHash : Option Str) :
    List ((Paper × List Msg) × BatchOutcome) →
      List (Str × ResultDict) × Except Str (List (Paper × ResultDict))
  | [] => ([], .ok [])
  | (_, none) :: _ =>
    ([], .error ("AttributeError: NoneType object has no attribute model_dump").data)
  | ((p, msgs), some (r, u, ci)) :: rest =>
    let d := prepare_result_with_conversation dumpRes r threshold msgs u ci
    let (w, e) := processEvaluated dumpRes threshold configHash rest
    ((generate_key p.id configHash, d) :: w,
     match e with
     | .ok res => .ok ((p, d) :: res)
     | .error s => .error s)

/-- The observable behaviour of one backend `filter_batch` call: which
papers were sent for evaluation, the message batches submitted to the
LLM client, the cache writes, and the returned value (or the exception
that aborted the call). -/
structure FilterOutput where
  evaluatedPapers : List Paper
  submitted : List (List Msg)
  writes : List (Str × ResultDict)
  result : Except Str (List (Paper × ResultDict))

/-- Backend `Stage1Filter.filter_batch`: partition into cached/uncached,
build one stage-1 prompt per uncached paper, submit them as one batch,
post-process with threshold/cache-write, and return cached results
followed by newly evaluated ones. -/
def stage1_filter_batch
    (complete_batch : List (List Msg) → List BatchOutcome)
    (cacheGet : Str → Option ResultDict) (dumpRes : Stage1Result → Str)
    (threshold : ℚ) (configHash : Option Str)
    (papers : List Paper) (userPrompt : Str) : FilterOutput :=
  let part := partitionCached cacheGet configHash papers
  let cachedResults := part.1
  let uncachedPapers := part.2
  if uncachedPapers.isEmpty then
    { evaluatedPapers := [], submitted := [], writes := [],
      result := .ok cachedResults }
  else
    let batchMessages := uncachedPapers.map
      (fun p => build_stage1_messages p.title p.categories userPrompt)
    let results := complete_batch batchMessages
    let processed := processEvaluated dumpRes threshold configHash
      ((uncachedPapers.zip batchMessages).zip results)
    if results.length = uncachedPapers.length then
      { evaluatedPapers := uncachedPapers, submitted := batchMessages,
        writes := processed.1,
        result := processed.2.map (fun evaluated => cachedResults ++ evaluated) }
    else
      { evaluatedPapers := uncachedPapers, submitted := batchMessages,
        writes := processed.1,
        result := .error ("ValueError: zip() argument is exhausted").data }

/-- The list a `filter_batch` call returned, or `[]` if it raised. -/
def okResults (out : FilterOutput) : List (Paper × ResultDict) :=
  match out.result with
  | .ok res => res
  | .error _ => []

/-! ## The earlier client/filter pair
(`src/src/llm/async_client.py`, `src/src/filter/stage1_filter.py`)

Here both sides are present in the repository.  `complete_batch` gathers
all per-prompt completions with `asyncio.gather(..., return_exceptions =
True)` (order-preserving) and then *drops* the exceptions, returning only
the valid results — a list possibly shorter than the submitted batch.
`filter_batch` then iterates `zip(uncached_papers, results, strict=True)`,
which raises `ValueError` whenever the two lists differ in length. -/

/-- `FilterResult`/`Stage1Result` of the earlier `schemas.py`: here
`pass_filter` is a required field of the LLM output itself, later
overwritten by the filter. -/
structure OldStage1Result where
  pass_filter : Bool
  score : ℚ
  reasoning : Option Str
  deriving DecidableEq, Repr

/-- `AsyncLLMClient.complete_batch` (earlier version): given the
per-prompt outcomes collected by `asyncio.gather` in submission order
(`none` = that item raised), keep only the valid results, preserving
relative order. -/
def old_complete_batch (outcomes : List (Option OldStage1Result)) :
    List OldStage1Result :=
  outcomes.filterMap id

/-- Earlier `Stage1Filter.filter_batch`: cache partition, one prompt per
uncached paper, `complete_batch`, then
`zip(uncached_papers, results, strict=True)` applying the threshold and
caching each result.  `oracle` maps a submitted prompt to its outcome. -/
def old_stage1_filter_batch
    (oracle : List Msg → Option OldStage1Result)
    (cacheGet : Str → Option OldStage1Result)
    (threshold : ℚ) (configHash : Option Str)
    (papers : List Paper) (userPrompt : Str) :
    Except Str (List (Paper × OldStage1Result)) :=
  let part := partitionCached cacheGet configHash papers
  let cachedResults := part.1
  let uncachedPapers := part.2
  if uncachedPapers.isEmpty then .ok cachedResults
  else
    let batchMessages := uncachedPapers.map
      (fun p => build_stage1_messages p.title p.categories userPrompt)
    let results := old_complete_batch (batchMessages.map oracle)
    if results.length = uncachedPapers.length then
      let evaluated := (uncachedPapers.zip results).map
        (fun pr => (pr.1, { pr.2 with pass_filter := decide (threshold ≤ pr.2.score) }))
      .ok (cachedResults ++ evaluated)
    else .error ("ValueError: zip() argument 2 is shorter than argument 1").data

/-- C6: in a batch where exactly one item fails (here: the one between
`xs` and `ys`) and every other item succeeds, `complete_batch` returns
the remaining results unaffected and in their original relative order,
and raises nothing (it is a total function of the gathered outcomes). -/
theorem old_complete_batch_isolates_failure (xs ys : List OldStage1Result) :
    old_complete_batch (xs.map some ++ none :: ys.map some) = xs ++ ys := by
  simp [old_complete_batch]

/-- Concrete papers used by the counterexamples and witnesses below. -/
def paperA : Paper :=
  { id := ("2501.00001").data, title := ("Paper A").data,
    categories := [("cs.AI").data] }

/-- A second concrete paper. -/
def paperB : Paper :=
  { id := ("2501.00002").data, title := ("Paper B").data,
    categories := [("cs.LG").data] }

/-- A successful stage-1 oracle result for `paperB`. -/
def okResultB : OldStage1Result :=
  { pass_filter := true, score := 9/10, reasoning := none }

/-- An oracle that fails on `paperA`'s prompt and succeeds on `paperB`'s:
the sibling call succeeds while one cache-miss item's call fails. -/
def failingOracle : List Msg → Option OldStage1Result := fun m =>
  if m = build_stage1_messages paperB.title paperB.categories ("agents").data
  then some okResultB else none

set_option maxRecDepth 100000 in
/-- C3: with an empty cache and a batch of two papers whose oracle calls
fail for `paperA` and succeed for `paperB`, `filter_batch` does **not**
complete normally: `complete_batch` drops the failed item, and
`zip(..., strict=True)` then raises `ValueError`, aborting the whole
stage batch instead of returning `paperB`'s result alongside an absent
judgment for `paperA`. -/
theorem old_stage1_filter_batch_aborts_on_single_failure :
    old_stage1_filter_batch failingOracle (fun _ => none) (1/2) none
      [paperA, paperB] ("agents").data =
      .error ("ValueError: zip() argument 2 is shorter than argument 1").data := by
  rfl

/-! ### Cache-partition and evaluation-loop lemmas -/

/-- Every pair in the cached half of the partition came from a cache hit
under the current key. -/
theorem partitionCached_fst_mem {α : Type} (g : Str → Option α)
    (ch : Option Str) :
    ∀ (papers : List Paper) (p : Paper) (d : α),
      (p, d) ∈ (partitionCached g ch papers).1 →
      g (generate_key p.id ch) = some d := by
  intro papers
  induction papers with
  | nil => intro p d h; simp [partitionCached] at h
  | cons q rest ih =>
    intro p d h
    simp only [partitionCached] at h
    cases hg : g (generate_key q.id ch) with
    | none => rw [hg] at h; exact ih p d h
    | some d0 =>
      rw [hg] at h
      rcases List.mem_cons.mp h with heq | hmem
      · injection heq with h1 h2
        rw [h1, h2]
        exact hg
      · exact ih p d hmem

/-- A paper whose key is a cache hit lands in the cached half, paired
with the cached value unchanged. -/
theorem partitionCached_hit_mem {α : Type} (g : Str → Option α)
    (ch : Option Str) :
    ∀ (papers : List Paper) (p : Paper) (d : α),
      p ∈ papers → g (generate_key p.id ch) = some d →
      (p, d) ∈ (partitionCached g ch papers).1 := by
  intro papers
  induction papers with
  | nil => intro p d h; simp at h
  | cons q rest ih =>
    intro p d hp hg
    simp only [partitionCached]
    rcases List.mem_cons.mp hp with rfl | hmem
    · rw [hg]; exact List.mem_cons_self _ _
    · cases hgq : g (generate_key q.id ch) with
      | none => exact ih p d hmem hg
      | some d0 => exact List.mem_cons_of_mem _ (ih p d hmem hg)

/-- A paper whose key is a cache hit never lands in the uncached half. -/
theorem partitionCached_hit_not_uncached {α : Type} (g : Str → Option α)
    (ch : Option Str) :
    ∀ (papers : List Paper) (p : Paper) (d : α),
      g (generate_key p.id ch) = some d →
      p ∉ (partitionCached g ch papers).2 := by
  intro papers
  induction papers with
  | nil => intro p d _ h; simp [partitionCached] at h
  | cons q rest ih =>
    intro p d hg h
    simp only [partitionCached] at h
    cases hgq : g (generate_key q.id ch) with
    | some d0 => rw [hgq] at h; exact ih p d hg h
    | none =>
      rw [hgq] at h
      rcases List.mem_cons.mp h with rfl | hmem
      · rw [hg] at hgq; cases hgq
      · exact ih p d hg hmem

/-- Every dict produced by the evaluation loop — whether written to the
cache or returned — has `pass_filter` computed as `score >= threshold`. -/
theorem processEvaluated_spec (dumpRes : Stage1Result → Str) (θ : ℚ)
    (ch : Option Str) :
    ∀ (xs : List ((Paper × List Msg) × BatchOutcome)),
      (∀ k d, (k, d) ∈ (processEvaluated dumpRes θ ch xs).1 →
        d.pass_filter = decide (θ ≤ d.score)) ∧
      (∀ res, (processEvaluated dumpRes θ ch xs).2 = .ok res →
        ∀ p d, (p, d) ∈ res → d.pass_filter = decide (θ ≤ d.score)) := by
  intro xs
  induction xs with
  | nil =>
    refine ⟨fun k d h => by simp [processEvaluated] at h, fun res hres p d h => ?_⟩
    simp [processEvaluated] at hres
    subst hres; simp at h
  | cons x rest ih =>
    obtain ⟨⟨p0, msgs0⟩, outcome⟩ := x
    cases outcome with
    | none =>
      refine ⟨fun k d h => by simp [processEvaluated] at h, fun res hres => ?_⟩
      simp [processEvaluated] at hres
    | some triple =>
      obtain ⟨r, u, ci⟩ := triple
      have hd : (prepare_result_with_conversation dumpRes r θ msgs0 u ci).pass_filter =
          decide (θ ≤ (prepare_result_with_conversation dumpRes r θ msgs0 u ci).score) := rfl
      constructor
      · intro k d h
        simp only [processEvaluated] at h
        rcases List.mem_cons.mp h with heq | hmem
        · injection heq with h1 h2
          subst h2; exact hd
        · exact ih.1 k d hmem
      · intro res hres p d h
        simp only [processEvaluated] at hres
        cases he : (processEvaluated dumpRes θ ch rest).2 with
        | error s => rw [he] at hres; cases hres
        | ok res' =>
          rw [he] at hres
          injection hres with hres
          subst hres
          rcases List.mem_cons.mp h with heq | hmem
          · injection heq with h1 h2
            subst h2; exact hd
          · exact ih.2 res' he p d hmem

/-- Any pair returned by a completed backend `filter_batch` call either
came unchanged from the cache or was freshly evaluated with
`pass_filter = (score >= threshold)`. -/
theorem stage1_filter_batch_ok_mem
    (cb : List (List Msg) → List BatchOutcome) (cg : Str → Option ResultDict)
    (dr : Stage1Result → Str) (θ : ℚ) (ch : Option Str)
    (papers : List Paper) (up : Str) (p : Paper) (d : ResultDict)
    (h : (p, d) ∈ okResults (stage1_filter_batch cb cg dr θ ch papers up)) :
    cg (generate_key p.id ch) = some d ∨
      d.pass_filter = decide (θ ≤ d.score) := by
  simp only [stage1_filter_batch] at h
  split at h
  · simp only [okResults] at h
    exact Or.inl (partitionCached_fst_mem cg ch papers p d h)
  · split at h
    · simp only [okResults] at h
      cases he : (processEvaluated dr θ ch
          (((partitionCached cg ch papers).2.zip
            ((partitionCached cg ch papers).2.map
              (fun p => build_stage1_messages p.title p.categories up))).zip
            (cb ((partitionCached cg ch papers).2.map
              (fun p => build_stage1_messages p.title p.categories up))))).2 with
      | error s => rw [he] at h; simp [Except.map] at h
      | ok ev =>
        rw [he] at h
        simp only [Except.map] at h
        rcases List.mem_append.mp h with hc | hev
        · exact Or.inl (partitionCached_fst_mem cg ch papers p d hc)
        · exact Or.inr ((processEvaluated_spec dr θ ch _).2 ev he p d hev)
    · simp [okResults] at h

/-- C2: under a cache whose visible entries (those stored under the
current configuration fingerprint) satisfy the invariant, every judgment
a completed `filter_batch` call returns, and every entry it writes,
satisfies `pass_filter = true` exactly when `score >= threshold`. -/
theorem stage1_pass_iff_threshold
    (cb : List (List Msg) → List BatchOutcome) (cg : Str → Option ResultDict)
    (dr : Stage1Result → Str) (θ : ℚ) (ch : Option Str)
    (papers : List Paper) (up : Str)
    (hcache : ∀ k d, cg k = some d → (d.pass_filter = true ↔ θ ≤ d.score))
    (p : Paper) (k : Str) (d : ResultDict)
    (h : (p, d) ∈ okResults (stage1_filter_batch cb cg dr θ ch papers up) ∨
         (k, d) ∈ (stage1_filter_batch cb cg dr θ ch papers up).writes) :
    d.pass_filter = true ↔ θ ≤ d.score := by
  rcases h with h | h
  · rcases stage1_filter_batch_ok_mem cb cg dr θ ch papers up p d h with hc | hp
    · exact hcache _ d hc
    · rw [hp]; simp
  · simp only [stage1_filter_batch] at h
    split at h
    · simp at h
    · have hw : (k, d) ∈ (processEvaluated dr θ ch
          (((partitionCached cg ch papers).2.zip
            ((partitionCached cg ch papers).2.map
              (fun p => build_stage1_messages p.title p.categories up))).zip
            (cb ((partitionCached cg ch papers).2.map
              (fun p => build_stage1_messages p.title p.categories up))))).1 := by
        split at h <;> exact h
      have := (processEvaluated_spec dr θ ch _).1 k d hw
      rw [this]; simp

/-- C4: if a paper's key is in the cache, `filter_batch` does not send it
for evaluation (so no Judgment Client call is made for it: the submitted
batch consists of prompts for the uncached papers only), and whenever the
call completes, the returned list contains that paper paired with the
cached judgment unchanged. -/
theorem stage1_cache_hit_no_call
    (cb : List (List Msg) → List BatchOutcome) (cg : Str → Option ResultDict)
    (dr : Stage1Result → Str) (θ : ℚ) (ch : Option Str)
    (papers : List Paper) (up : Str) (p : Paper) (j : ResultDict)
    (hp : p ∈ papers) (hhit : cg (generate_key p.id ch) = some j) :
    p ∉ (stage1_filter_batch cb cg dr θ ch papers up).evaluatedPapers ∧
    (stage1_filter_batch cb cg dr θ ch papers up).submitted =
      (stage1_filter_batch cb cg dr θ ch papers up).evaluatedPapers.map
        (fun q => build_stage1_messages q.title q.categories up) ∧
    (∀ res, (stage1_filter_batch cb cg dr θ ch papers up).result = .ok res →
      (p, j) ∈ res) := by
  have hmemc : (p, j) ∈ (partitionCached cg ch papers).1 :=
    partitionCached_hit_mem cg ch papers p j hp hhit
  have hnu : p ∉ (partitionCached cg ch papers).2 :=
    partitionCached_hit_not_uncached cg ch papers p j hhit
  simp only [stage1_filter_batch]
  split
  · exact ⟨by simp, by simp, fun res hres => by
      injection hres with hres; rw [← hres]; exact hmemc⟩
  · split
    · refine ⟨hnu, rfl, fun res hres => ?_⟩
      simp only [Except.map] at hres
      cases he : (processEvaluated dr θ ch
          (((partitionCached cg ch papers).2.zip
            ((partitionCached cg ch papers).2.map
              (fun p => build_stage1_messages p.title p.categories up))).zip
            (cb ((partitionCached cg ch papers).2.map
              (fun p => build_stage1_messages p.title p.categories up))))).2 with
      | error s => rw [he] at hres; cases hres
      | ok ev =>
        rw [he] at hres
        injection hres with hres
        rw [← hres]
        exact List.mem_append_left _ hmemc
    · exact ⟨hnu, rfl, fun res hres => by cases hres⟩

/-! ### Concrete instances for the stage-1 witnesses -/

/-- A well-formed cached judgment for threshold 1/2. -/
def wfCached : ResultDict :=
  { score := 3/4, reasoning := none, pass_filter := true, usage := none,
    estimated_cost := none, estimated_cost_currency := none, messages := [] }

/-- A cache holding exactly one entry: `paperA` under no config hash. -/
def cacheA : Str → Option ResultDict := fun k =>
  if k = generate_key paperA.id none then some wfCached else none

/-- A client whose every call succeeds with a fixed low score. -/
def clientLow : List (List Msg) → List BatchOutcome := fun batch =>
  batch.map (fun _ => some ({ score := 1/4, reasoning := none }, none, none))

/-- The concrete backend `filter_batch` run used by the witnesses:
`paperA` is a cache hit, `paperB` is evaluated by `clientLow`. -/
def outAB : FilterOutput :=
  stage1_filter_batch clientLow cacheA (fun _ => []) (1/2) none
    [paperA, paperB] ("agents").data

set_option maxRecDepth 100000 in
/-- Witness for the C2 theorem: in the concrete run `outAB`, the
returned cached judgment satisfies the pass/threshold invariant. -/
theorem stage1_pass_iff_threshold_witness :
    wfCached.pass_filter = true ↔ (1/2 : ℚ) ≤ wfCached.score :=
  stage1_pass_iff_threshold clientLow cacheA (fun _ => []) (1/2) none
    [paperA, paperB] (("agents").data)
    (by
      intro k d h
      by_cases hk : k = generate_key paperA.id none
      · rw [cacheA, if_pos hk] at h
        injection h with h
        rw [← h]; with_unfolding_all decide
      · rw [cacheA, if_neg hk] at h; cases h)
    paperA ([]) wfCached
    (Or.inl (by with_unfolding_all decide))

set_option maxRecDepth 100000 in
/-- Witness for the C4 theorem: in the concrete run `outAB`, `paperA`
(a cache hit) is absent from the evaluated set, the submitted batch is
exactly the prompts of the evaluated papers, and the returned list
contains `paperA` with its cached judgment unchanged. -/
theorem stage1_cache_hit_no_call_witness :
    (paperA ∉ outAB.evaluatedPapers) ∧
    ((paperA, wfCached) ∈ okResults outAB) :=
  ⟨(stage1_cache_hit_no_call clientLow cacheA (fun _ => []) (1/2) none
      [paperA, paperB] (("agents").data) paperA wfCached
      (by decide) (by with_unfolding_all decide)).1,
   (stage1_cache_hit_no_call clientLow cacheA (fun _ => []) (1/2) none
      [paperA, paperB] (("agents").data) paperA wfCached
      (by decide) (by with_unfolding_all decide)).2.2 (okResults outAB) (by rfl)⟩

/-! ## Pipeline orchestrator (`backend/src/filter/pipeline.py`)

`FilterPipeline.run` calls the three injected stage filters in sequence.
We embed `run` against its dependencies: `s1`, `s2` are the stage-1/2
`filter_batch` calls (returning one judgment dict per pair) and `s3` is
stage 3's (whose judgment can be `None` when the full text could not be
fetched).  `stage2Input`/`stage3Input` record the argument of the
corresponding `filter_batch` invocation, `none` meaning the stage was
skipped (`if stage1_passed:` / `if stage2_passed:` on the empty list). -/

/-- The dictionary returned by `FilterPipeline.run`. -/
structure PipelineRun where
  stage1Results : List (Paper × ResultDict)
  stage1Passed : List Paper
  stage2Input : Option (List Paper)
  stage2Results : List (Paper × ResultDict)
  stage2Passed : List Paper
  stage3Input : Option (List Paper)
  stage3Results : List (Paper × Option ResultDict)
  stage3Passed : List Paper

/-- `FilterPipeline.run`: stage 1 on all papers; stage 2 only on the
stage-1 passed papers and only if that list is nonempty; stage 3 only on
the stage-2 passed papers and only if that list is nonempty; skipped
stages keep their `[]` initialisers.  `stage3_passed` keeps a paper only
if its judgment is present and truthy with `pass_filter` set
(`if result and result["pass_filter"]`). -/
def pipeline_run (s1 s2 : List Paper → List (Paper × ResultDict))
    (s3 : List Paper → List (Paper × Option ResultDict))
    (papers : List Paper) : PipelineRun :=
  let stage1Results := s1 papers
  let stage1Passed := stage1Results.filterMap
    (fun pr => if pr.2.pass_filter then some pr.1 else none)
  if stage1Passed.isEmpty then
    { stage1Results := stage1Results, stage1Passed := stage1Passed,
      stage2Input := none, stage2Results := [], stage2Passed := [],
      stage3Input := none, stage3Results := [], stage3Passed := [] }
  else
    let stage2Results := s2 stage1Passed
    let stage2Passed := stage2Results.filterMap
      (fun pr => if pr.2.pass_filter then some pr.1 else none)
    if stage2Passed.isEmpty then
      { stage1Results := stage1Results, stage1Passed := stage1Passed,
        stage2Input := some stage1Passed, stage2Results := stage2Results,
        stage2Passed := stage2Passed,
        stage3Input := none, stage3Results := [], stage3Passed := [] }
    else
      let stage3Results := s3 stage2Passed
      let stage3Passed := stage3Results.filterMap
        (fun pr => match pr.2 with
          | some d => if d.pass_filter then some pr.1 else none
          | none => none)
      { stage1Results := stage1Results, stage1Passed := stage1Passed,
        stage2Input := some stage1Passed, stage2Results := stage2Results,
        stage2Passed := stage2Passed,
        stage3Input := some stage2Passed, stage3Results := stage3Results,
        stage3Passed := stage3Passed }

/-- Members of the `filterMap` computing a passed list are papers of the
underlying results list. -/
theorem mem_passed_of_filterMap (results : List (Paper × ResultDict))
    (p : Paper)
    (h : p ∈ results.filterMap
      (fun pr => if pr.2.pass_filter then some pr.1 else none)) :
    ∃ d, (p, d) ∈ results ∧ d.pass_filter = true := by
  rcases List.mem_filterMap.mp h with ⟨pr, hmem, hq⟩
  obtain ⟨q, d⟩ := pr
  dsimp only at hq
  by_cases hp : d.pass_filter
  · rw [if_pos hp] at hq
    injection hq with hq
    subst hq
    exact ⟨d, hmem, hp⟩
  · rw [if_neg hp] at hq; cases hq

/-- C5: stage 2 is invoked exactly on the stage-1 passed set and stage 3
exactly on the stage-2 passed set; an empty survivor set entering a
stage skips it and all later stages, recording empty results and empty
passed lists; and if a stage filter only returns pairs for papers it was
given, each stage's passed set (hence the next stage's input) is a
subset of the previous stage's passed set. -/
theorem pipeline_narrowing (s1 s2 : List Paper → List (Paper × ResultDict))
    (s3 : List Paper → List (Paper × Option ResultDict))
    (papers : List Paper) :
    (∀ run, run = pipeline_run s1 s2 s3 papers →
      ((run.stage1Passed ≠ [] → run.stage2Input = some run.stage1Passed) ∧
       (run.stage1Passed = [] →
         run.stage2Input = none ∧ run.stage2Results = [] ∧
         run.stage2Passed = [] ∧ run.stage3Input = none ∧
         run.stage3Results = [] ∧ run.stage3Passed = []) ∧
       (run.stage2Passed ≠ [] → run.stage2Input ≠ none →
         run.stage3Input = some run.stage2Passed) ∧
       (run.stage2Passed = [] →
         run.stage3Input = none ∧ run.stage3Results = [] ∧
         run.stage3Passed = []) ∧
       ((∀ inp q r, (q, r) ∈ s2 inp → q ∈ inp) →
         ∀ q ∈ run.stage2Passed, q ∈ run.stage1Passed) ∧
       ((∀ inp q r, (q, r) ∈ s3 inp → q ∈ inp) →
         ∀ q ∈ run.stage3Passed, q ∈ run.stage2Passed))) := by
  intro run hrun
  subst hrun
  simp only [pipeline_run]
  split
  · rename_i h1
    rw [List.isEmpty_iff] at h1
    refine ⟨fun hne => absurd h1 hne, fun _ => ⟨rfl, rfl, rfl, rfl, rfl, rfl⟩,
      fun _ hcon => absurd rfl hcon, fun _ => ⟨rfl, rfl, rfl⟩,
      fun _ q hq => by simp at hq, fun _ q hq => by simp at hq⟩
  · rename_i h1
    rw [List.isEmpty_iff] at h1  -- hmm, h1 : ¬ (… = [])
    split
    · rename_i h2
      rw [List.isEmpty_iff] at h2
      refine ⟨fun _ => rfl, fun he => absurd he h1, ?_, fun _ => ⟨rfl, rfl, rfl⟩,
        ?_, fun _ q hq => by simp at hq⟩
      · intro hne _; exact absurd h2 hne
      · intro hs2 q hq
        obtain ⟨d, hmem, _⟩ := mem_passed_of_filterMap _ q hq
        exact hs2 _ q d hmem
    · rename_i h2
      refine ⟨fun _ => rfl, fun he => absurd he h1, fun _ _ => rfl,
        fun he => absurd (List.isEmpty_iff.mpr he) h2, ?_, ?_⟩
      · intro hs2 q hq
        obtain ⟨d, hmem, _⟩ := mem_passed_of_filterMap _ q hq
        exact hs2 _ q d hmem
      · intro hs3 q hq
        rcases List.mem_filterMap.mp hq with ⟨pr, hmem, hq'⟩
        obtain ⟨q', od⟩ := pr
        cases od with
        | none => simp at hq'
        | some d =>
          dsimp only at hq'
          by_cases hp : d.pass_filter
          · rw [if_pos hp] at hq'
            injection hq' with hq'
            subst hq'
            exact hs3 _ q' (some d) hmem
          · rw [if_neg hp] at hq'; cases hq'

/-- A failed stage-1 judgment used in the pipeline witness. -/
def failDict : ResultDict :=
  { score := 0, reasoning := none, pass_filter := false, usage := none,
    estimated_cost := none, estimated_cost_currency := none, messages := [] }

/-- A concrete stage-1 filter for the pipeline witness: only `paperA`
passes. -/
def s1c : List Paper → List (Paper × ResultDict) := fun ps =>
  ps.map (fun p => (p, if p = paperA then wfCached else failDict))

/-- A concrete stage-2 filter for the pipeline witness: everything
passes. -/
def s2c : List Paper → List (Paper × ResultDict) := fun ps =>
  ps.map (fun p => (p, wfCached))

/-- A concrete stage-3 filter for the pipeline witness: every full-text
fetch fails, so every judgment is absent. -/
def s3c : List Paper → List (Paper × Option ResultDict) := fun ps =>
  ps.map (fun p => (p, none))

/-- The concrete pipeline run used by the C5 witness. -/
def runC : PipelineRun := pipeline_run s1c s2c s3c [paperA, paperB]

set_option maxRecDepth 100000 in
/-- Witness for the C5 theorem on the concrete run `runC`: stage 2's
input is exactly the stage-1 passed list, stage 3's input is exactly the
stage-2 passed list, and a stage-2 survivor is a stage-1 survivor. -/
theorem pipeline_narrowing_witness :
    runC.stage2Input = some runC.stage1Passed ∧
    runC.stage3Input = some runC.stage2Passed ∧
    paperA ∈ runC.stage1Passed := by
  have T := pipeline_narrowing s1c s2c s3c [paperA, paperB] runC rfl
  have hs2 : ∀ inp q r, (q, r) ∈ s2c inp → q ∈ inp := by
    intro inp q r h
    simp only [s2c] at h
    rcases List.mem_map.mp h with ⟨p, hp, he⟩
    injection he with he1 he2
    rw [← he1]; exact hp
  refine ⟨T.1 (by with_unfolding_all decide),
    T.2.2.1 (by with_unfolding_all decide) (by with_unfolding_all decide),
    T.2.2.2.2.1 hs2 paperA (by with_unfolding_all decide)⟩

/-! ## Content extractor (`backend/src/parser/html_cleaner.py`)

`ArxivHtmlCleaner.clean` parses the HTML, locates the content root, walks
it with `_extract_text_recursive`, normalizes whitespace, and truncates
to `max_chars`.  The parsed DOM is the input of our embedding: a `Node`
is a text node, a `<math>` element carrying an optional
`application/x-tex` annotation, or an element with a tag name and
children.  (Tags outside this subset — tables, figures, citations,
links — are not modelled; the normalization and truncation stages below
are proved for *every* intermediate string, so nothing depends on the
subset.)  Python `str.strip()` removes the six ASCII whitespace
characters. -/

/-- Python `str.strip()` whitespace set (ASCII). -/
def isPySpace (c : Char) : Bool :=
  c == ' ' || c == '\t' || c == '\n' || c == '\r' || c == '\x0B' || c == '\x0C'

/-- Python `str.strip()`. -/
def pythonStrip (l : Str) : Str := (l.dropWhile isPySpace).rdropWhile isPySpace

/-- `sep.join(parts)` for a one-character separator. -/
def joinWith (sep : Char) : List Str → Str
  | [] => []
  | [l] => l
  | l :: rest => l ++ sep :: joinWith sep rest

/-- A node of the parsed document. -/
inductive Node where
  | text (s : Str)
  | math (annot : Option Str)
  | elem (name : Str) (children : List Node)

mutual
/-- `BeautifulSoup.get_text(separator=" ", strip=True)` gathers every
string below a node, strips each, and drops the empty ones; `<math>`
elements were first replaced by their `$`-wrapped LaTeX source
(`_extract_math`), or left contributing nothing without an annotation. -/
def collectStrings : Node → List Str
  | .text s =>
    let t := pythonStrip s
    if t = [] then [] else [t]
  | .math a =>
    match a with
    | some latex => ['$' :: (pythonStrip latex ++ ['$'])]
    | none => []
  | .elem _ cs => collectList cs
def collectList : List Node → List Str
  | [] => []
  | c :: rest => collectStrings c ++ collectList rest
end

/-- `_extract_text_from_element`: flatten an element's strings (with math
and reference handling) into one space-separated string. -/
def extractTextFromElement (cs : List Node) : Str :=
  joinWith ' ' (collectList cs)

/-- `_handle_math`: `f" {latex_text} "` when an annotation is present
(`_extract_math` wraps the stripped LaTeX source in `$`), else empty. -/
def handleMath : Option Str → Str
  | some latex => ' ' :: ('$' :: (pythonStrip latex ++ ['$'])) ++ [' ']
  | none => []

/-- `_handle_header`: `## title` for levels 1–2, `### title` for 3+. -/
def handleHeader (name : Str) (cs : List Node) : Str :=
  let titleText := extractTextFromElement cs
  if titleText = [] then []
  else
    let level := (name.getD 1 '0').toNat - ('0').toNat
    if level ≤ 2 then ("\n\n## ").data ++ titleText ++ [('\n' : Char)]
    else ("\n\n### ").data ++ titleText ++ [('\n' : Char)]

/-- `_handle_paragraph`: the paragraph's text delimited by newlines. -/
def handleParagraph (cs : List Node) : Str :=
  let paraText := extractTextFromElement cs
  if paraText = [] then [] else '\n' :: (paraText ++ [('\n' : Char)])

/-- `_handle_list`: one `- item` line per non-empty direct `li` child. -/
def handleListTag (cs : List Node) : Str :=
  let items := cs.filterMap (fun c =>
    match c with
    | Node.elem n lcs =>
      if n = ("li").data then
        let t := extractTextFromElement lcs
        if t = [] then none else some (("- ").data ++ t)
      else none
    | _ => none)
  if items = [] then [] else '\n' :: (joinWith '\n' items ++ [('\n' : Char)])

/-- Tag names dispatched to `_handle_header`. -/
def headerTags : List Str :=
  [("h1").data, ("h2").data, ("h3").data, ("h4").data, ("h5").data, ("h6").data]

/-- `self.block_tags`. -/
def blockTags : List Str := [("section").data, ("div").data, ("article").data]

/-- `self.inline_tags`. -/
def inlineTags : List Str :=
  [("span").data, ("em").data, ("strong").data, ("i").data, ("b").data,
   ("code").data]

/-- `_handle_tag`'s dispatch on the tag name.  `recursedParts` is the
result of `_extract_text_recursive` on this element's children (passed
in so that the recursion is structural); it is used by the block-level
and default branches, which recurse in the source. -/
def handleTagWith (name : Str) (cs : List Node) (recursedParts : List Str) : Str :=
  if name ∈ headerTags then handleHeader name cs
  else if name = ("p").data then handleParagraph cs
  else if name ∈ blockTags then joinWith ' ' recursedParts
  else if name = ("ul").data ∨ name = ("ol").data then handleListTag cs
  else if name ∈ inlineTags then extractTextFromElement cs
  else joinWith ' ' recursedParts

mutual
/-- `_extract_text_recursive`'s loop over `element.children`: text nodes
are stripped and kept if non-empty; tags are dispatched to `_handle_tag`
and kept if non-empty; the pieces are later joined by `" "`. -/
def extractParts : List Node → List Str
  | [] => []
  | c :: rest =>
    let t := extractChild c
    let r := extractParts rest
    if t = [] then r else t :: r
def extractChild : Node → Str
  | .text s => pythonStrip s
  | .math a => handleMath a
  | .elem name cs => handleTagWith name cs (extractParts cs)
end

/-- `_extract_text_recursive` on the content root. -/
def extractTextRecursive : Node → Str
  | .elem _ cs => joinWith ' ' (extractParts cs)
  | .text s => pythonStrip s
  | .math a => handleMath a

/-- `re.sub(r" +", " ", text)`: collapse every run of spaces to one. -/
def collapseSpaces : Str → Str
  | [] => []
  | [c] => [c]
  | a :: b :: rest =>
    if a = ' ' ∧ b = ' ' then collapseSpaces (b :: rest)
    else a :: collapseSpaces (b :: rest)

/-- `re.sub(r"\n{3,}", "\n\n", text)`: collapse every run of three or
more newlines to exactly two. -/
def collapseNewlines : Str → Str
  | a :: b :: c :: rest =>
    if a = '\n' ∧ b = '\n' ∧ c = '\n' then collapseNewlines (b :: c :: rest)
    else a :: collapseNewlines (b :: c :: rest)
  | l => l

/-- `text.split("\n")`. -/
def splitOnNL : Str → List Str
  | [] => [[]]
  | c :: rest =>
    let r := splitOnNL rest
    if c = '\n' then [] :: r
    else (c :: r.headD []) :: r.tail

/-- `re.sub(r"^(#{1,6})\s*(\d+)([A-Z])", r"\1 \2 \3", line)`: repair
header-number spacing.  The anchored pattern matches one to six leading
`#` (not followed by a seventh), optional whitespace, a digit run, and
an upper-case letter; the replacement separates the three groups by
single spaces. -/
def headerFix (l : Str) : Str :=
  let hashes := l.takeWhile (fun c => c == '#')
  if hashes.length = 0 ∨ 6 < hashes.length then l
  else
    let rest := l.dropWhile (fun c => c == '#')
    let rest2 := rest.dropWhile isPySpace
    let digits := rest2.takeWhile Char.isDigit
    if digits = [] then l
    else
      match rest2.dropWhile Char.isDigit with
      | c :: tail =>
        if c.isUpper then hashes ++ ' ' :: (digits ++ ' ' :: c :: tail) else l
      | [] => l

/-- The per-line step of `_normalize_whitespace`: strip the line, then
repair header spacing when it starts with `#`. -/
def cleanLine (l : Str) : Str :=
  let stripped := pythonStrip l
  if stripped.head? = some '#' then headerFix stripped else stripped

/-- `_normalize_whitespace`: collapse space runs, collapse newline runs
of three or more, strip and header-fix each line, re-join, strip. -/
def normalize_whitespace (text : Str) : Str :=
  let t1 := collapseSpaces text
  let t2 := collapseNewlines t1
  let lines := (splitOnNL t2).map cleanLine
  pythonStrip (joinWith '\n' lines)

/-- `if self.max_chars and len(text) > self.max_chars: text =
text[:self.max_chars]` — note `0` and `None` are both falsy. -/
def applyMaxChars (maxChars : Option Nat) (t : Str) : Str :=
  match maxChars with
  | some m => if m ≠ 0 ∧ m < t.length then t.take m else t
  | none => t

/-- `ArxivHtmlCleaner.clean`, from the parsed content root onward:
extract text, normalize whitespace, truncate at the budget. -/
def clean (root : Node) (maxChars : Option Nat) : Str :=
  applyMaxChars maxChars (normalize_whitespace (extractTextRecursive root))

/-- `text` contains no run of three or more consecutive newlines. -/
def noTripleNewline : Str → Bool
  | a :: b :: c :: rest =>
    if a = '\n' ∧ b = '\n' ∧ c = '\n' then false
    else noTripleNewline (b :: c :: rest)
  | _ => true

/-- Adjacent characters are never both spaces: the pairwise relation of
"no run of two or more consecutive space characters". -/
abbrev SpaceSep (a b : Char) : Prop := ¬(a = ' ' ∧ b = ' ')

/-- A paragraph followed by a section heading — the smallest document
shape on which whitespace normalization leaves three consecutive
newlines. -/
def paraThenHeading : Node :=
  Node.elem ("div").data
    [Node.elem ("p").data [Node.text ("para").data],
     Node.elem ("h2").data [Node.text ("H").data]]

/-- `SpaceSep` holds whenever the left character is not a space. -/
theorem spaceSep_of_left {a : Char} (h : a ≠ ' ') (b : Char) : SpaceSep a b :=
  fun hh => h hh.1

/-- `SpaceSep` holds whenever the right character is not a space. -/
theorem spaceSep_of_right {b : Char} (h : b ≠ ' ') (a : Char) : SpaceSep a b :=
  fun hh => h hh.2

/-- Any list of non-space characters has no two adjacent spaces. -/
theorem chain'_of_forall_ne_space :
    ∀ (l : Str), (∀ x ∈ l, x ≠ ' ') → List.Chain' SpaceSep l := by
  intro l
  induction l with
  | nil => intro _; simp
  | cons a t ih =>
    intro h
    exact List.chain'_cons'.mpr
      ⟨fun y _ => spaceSep_of_left (h a (List.mem_cons_self a t)) y,
       ih (fun x hx => h x (List.mem_cons_of_mem a hx))⟩

/-- Stripping preserves the no-double-space property (the result is an
infix of the input). -/
theorem chain'_pythonStrip {l : Str} (h : List.Chain' SpaceSep l) :
    List.Chain' SpaceSep (pythonStrip l) :=
  List.Chain'.prefix (h.suffix (List.dropWhile_suffix _))
    ( List.rdropWhile_prefix _ _)

/-- `collapseSpaces` keeps the head of a non-empty list. -/
theorem collapseSpaces_cons :
    ∀ (l : Str) (b : Char), ∃ t, collapseSpaces (b :: l) = b :: t := by
  intro l
  induction l with
  | nil => intro b; exact ⟨[], rfl⟩
  | cons c rest ih =>
    intro b
    by_cases h : b = ' ' ∧ c = ' '
    · obtain ⟨t, ht⟩ := ih c
      refine ⟨t, ?_⟩
      simp only [collapseSpaces, if_pos h]
      rw [ht, h.1, h.2]
    · exact ⟨collapseSpaces (c :: rest), by simp only [collapseSpaces, if_neg h]⟩

/-- After collapsing space runs, no two adjacent characters are both
spaces. -/
theorem chain'_collapseSpaces :
    ∀ l : Str, List.Chain' SpaceSep (collapseSpaces l) := by
  intro l
  induction l with
  | nil => simp [collapseSpaces]
  | cons a tail ih =>
    cases tail with
    | nil => simp [collapseSpaces]
    | cons b rest =>
      by_cases h : a = ' ' ∧ b = ' '
      · simpa only [collapseSpaces, if_pos h] using ih
      · simp only [collapseSpaces, if_neg h]
        obtain ⟨t, ht⟩ := collapseSpaces_cons rest b
        rw [ht]
        rw [ht] at ih
        refine List.chain'_cons'.mpr ⟨fun y hy => ?_, ih⟩
        simp only [List.head?_cons, Option.mem_def, Option.some.injEq] at hy
        rw [← hy]
        exact h

/-- `collapseNewlines` keeps the head of a non-empty list. -/
theorem collapseNewlines_cons :
    ∀ (l : Str) (a : Char), ∃ t, collapseNewlines (a :: l) = a :: t := by
  intro l
  induction l with
  | nil => intro a; exact ⟨[], by simp [collapseNewlines]⟩
  | cons b l' ih =>
    intro a
    cases l' with
    | nil => exact ⟨[b], by simp [collapseNewlines]⟩
    | cons c rest =>
      by_cases h : a = '\n' ∧ b = '\n' ∧ c = '\n'
      · obtain ⟨t, ht⟩ := ih b
        refine ⟨t, ?_⟩
        simp only [collapseNewlines, if_pos h]
        rw [ht, h.1, h.2.1]
      · exact ⟨collapseNewlines (b :: c :: rest),
          by simp only [collapseNewlines, if_neg h]⟩

/-- Collapsing newline runs preserves the no-double-space property. -/
theorem chain'_collapseNewlines :
    ∀ l : Str, List.Chain' SpaceSep l →
      List.Chain' SpaceSep (collapseNewlines l) := by
  intro l
  induction l with
  | nil => intro hC; simp [collapseNewlines]
  | cons a tail ih =>
    intro hC
    cases tail with
    | nil => simp [collapseNewlines]
    | cons b rest2 =>
      cases rest2 with
      | nil => simpa [collapseNewlines] using hC
      | cons c rest =>
        by_cases h : a = '\n' ∧ b = '\n' ∧ c = '\n'
        · simp only [collapseNewlines, if_pos h]
          exact ih (List.chain'_cons'.mp hC).2
        · simp only [collapseNewlines, if_neg h]
          obtain ⟨t, ht⟩ := collapseNewlines_cons (c :: rest) b
          rw [ht]
          have htail : List.Chain' SpaceSep (b :: t) := by
            rw [← ht]
            exact ih (List.chain'_cons'.mp hC).2
          refine List.chain'_cons'.mpr ⟨fun y hy => ?_, htail⟩
          simp only [List.head?_cons, Option.mem_def, Option.some.injEq] at hy
          rw [← hy]
          exact (List.chain'_cons'.mp hC).1 b (by simp)

/-- Every line produced by splitting a no-double-space string on
newlines again has no double spaces. -/
theorem chain'_splitOnNL :
    ∀ (l : Str), List.Chain' SpaceSep l →
      ∀ s ∈ splitOnNL l, List.Chain' SpaceSep s := by
  intro l
  induction l with
  | nil =>
    intro _ s hs
    simp only [splitOnNL, List.mem_singleton] at hs
    subst hs; simp
  | cons c rest ih =>
    intro hC s hs
    have hrest := ih (List.chain'_cons'.mp hC).2
    simp only [splitOnNL] at hs
    by_cases hc : c = '\n'
    · rw [if_pos hc] at hs
      rcases List.mem_cons.mp hs with rfl | hmem
      · simp
      · exact hrest s hmem
    · rw [if_neg hc] at hs
      rcases List.mem_cons.mp hs with rfl | hmem
      · cases rest with
        | nil =>
          simp only [splitOnNL, List.headD]
          simp
        | cons d rest' =>
          by_cases hd : d = '\n'
          · have : (splitOnNL (d :: rest')).headD [] = [] := by
              simp [splitOnNL, if_pos hd]
            rw [this]
            simp
          · have hsp : splitOnNL (d :: rest') =
                (d :: (splitOnNL rest').headD []) :: (splitOnNL rest').tail := by
              simp [splitOnNL, if_neg hd]
            rw [hsp]
            simp only [List.headD_cons]
            refine List.chain'_cons'.mpr ⟨fun y hy => ?_, ?_⟩
            · simp only [List.head?_cons, Option.mem_def, Option.some.injEq] at hy
              rw [← hy]
              exact (List.chain'_cons'.mp hC).1 d (by simp)
            · have : (d :: (splitOnNL rest').headD []) ∈ splitOnNL (d :: rest') := by
                rw [hsp]; exact List.mem_cons_self _ _
              exact hrest _ this
      · exact hrest s (List.mem_of_mem_tail hmem)

/-- A digit is not a space. -/
theorem ne_space_of_isDigit {c : Char} (h : c.isDigit = true) : c ≠ ' ' := by
  intro hc; rw [hc] at h; cases h

/-- A member of `getLast?` is a member of the list. -/
theorem mem_of_getLast?_mem {α : Type} {l : List α} {x : α}
    (h : x ∈ l.getLast?) : x ∈ l := by
  obtain ⟨hne, rfl⟩ := List.mem_getLast?_eq_getLast h
  exact List.getLast_mem hne

/-- The shape produced by the header-number repair — hash marks, a
space, digits, a space, an upper-case letter, the rest of the line —
has no two adjacent spaces provided the pieces around the inserted
spaces are not spaces. -/
theorem chain'_header_concat (hashes digits : Str) (c : Char) (tail : Str)
    (hh : ∀ x ∈ hashes, x ≠ ' ') (hd : ∀ x ∈ digits, x ≠ ' ')
    (hdne : digits ≠ []) (hc : c ≠ ' ')
    (ht : List.Chain' SpaceSep (c :: tail)) :
    List.Chain' SpaceSep (hashes ++ ' ' :: (digits ++ ' ' :: c :: tail)) := by
  apply List.chain'_append.mpr
  refine ⟨chain'_of_forall_ne_space _ hh, ?_, ?_⟩
  · refine List.chain'_cons'.mpr ⟨?_, ?_⟩
    · intro y hy
      cases digits with
      | nil => exact absurd rfl hdne
      | cons d0 ds =>
        simp only [List.cons_append, List.head?_cons, Option.mem_def,
          Option.some.injEq] at hy
        rw [← hy]
        exact spaceSep_of_right (hd d0 (List.mem_cons_self d0 ds)) ' '
    · apply List.chain'_append.mpr
      refine ⟨chain'_of_forall_ne_space _ hd, ?_, ?_⟩
      · refine List.chain'_cons'.mpr ⟨?_, ht⟩
        intro y hy
        simp only [List.head?_cons, Option.mem_def, Option.some.injEq] at hy
        rw [← hy]
        exact spaceSep_of_right hc ' '
      · intro x hx y _
        exact spaceSep_of_left (hd x (mem_of_getLast?_mem hx)) y
  · intro x hx y _
    exact spaceSep_of_left (hh x (mem_of_getLast?_mem hx)) y

/-- Repairing header-number spacing preserves the no-double-space
property: the inserted spaces sit between hash marks, digits and an
upper-case letter, none of which is a space. -/
theorem chain'_headerFix {l : Str} (h : List.Chain' SpaceSep l) :
    List.Chain' SpaceSep (headerFix l) := by
  simp only [headerFix]
  split
  · exact h
  · split
    · exact h
    · rename_i hne hdig
      split
      · rename_i c tail hct
        split
        · rename_i hup
          apply chain'_header_concat
          · intro x hx
            have := List.mem_takeWhile_imp hx
            intro hxs
            rw [hxs] at this
            cases this
          · intro x hx
            exact ne_space_of_isDigit (List.mem_takeWhile_imp hx)
          · exact hdig
          · intro hcs; rw [hcs] at hup; cases hup
          · rw [← hct]
            exact h.suffix ((List.dropWhile_suffix _).trans
              ((List.dropWhile_suffix _).trans (List.dropWhile_suffix _)))
        · exact h
      · exact h

/-- The per-line cleanup (strip, then header repair) preserves the
no-double-space property. -/
theorem chain'_cleanLine {l : Str} (h : List.Chain' SpaceSep l) :
    List.Chain' SpaceSep (cleanLine l) := by
  simp only [cleanLine]
  split
  · exact chain'_headerFix (chain'_pythonStrip h)
  · exact chain'_pythonStrip h

/-- Joining no-double-space lines with newlines yields a no-double-space
string: every boundary pair involves a newline, which is not a space. -/
theorem chain'_joinNL :
    ∀ (lines : List Str), (∀ s ∈ lines, List.Chain' SpaceSep s) →
      List.Chain' SpaceSep (joinWith '\n' lines) := by
  intro lines
  induction lines with
  | nil => intro _; simp [joinWith]
  | cons l rest ih =>
    intro h
    cases rest with
    | nil => simpa [joinWith] using h l (List.mem_cons_self _ _)
    | cons l2 rest' =>
      simp only [joinWith]
      apply List.chain'_append.mpr
      refine ⟨h l (List.mem_cons_self _ _), ?_, ?_⟩
      · refine List.chain'_cons'.mpr ⟨?_, ?_⟩
        · exact fun y _ => spaceSep_of_left (by decide) y
        · exact ih (fun s hs => h s (List.mem_cons_of_mem _ hs))
      · intro x _ y hy
        simp only [List.head?_cons, Option.mem_def, Option.some.injEq] at hy
        rw [← hy]
        exact spaceSep_of_right (by decide) x

/-- `_normalize_whitespace` output never has two adjacent spaces. -/
theorem chain'_normalize_whitespace (t : Str) :
    List.Chain' SpaceSep (normalize_whitespace t) := by
  simp only [normalize_whitespace]
  apply chain'_pythonStrip
  apply chain'_joinNL
  intro s hs
  rcases List.mem_map.mp hs with ⟨line, hline, rfl⟩
  exact chain'_cleanLine
    (chain'_splitOnNL _ (chain'_collapseNewlines _ (chain'_collapseSpaces t))
      line hline)

/-- C9 (corrected): for every parsed document and every character
budget, the text returned by `clean` contains no run of two or more
consecutive space characters.  (The other half of the claim — never
three or more consecutive newlines — is false; see the counterexample.) -/
theorem clean_no_double_space (root : Node) (maxChars : Option Nat) :
    List.Chain' SpaceSep (clean root maxChars) := by
  have hnorm := chain'_normalize_whitespace (extractTextRecursive root)
  cases maxChars with
  | none => simpa only [clean, applyMaxChars] using hnorm
  | some m =>
    simp only [clean, applyMaxChars]
    split
    · exact hnorm.take m
    · exact hnorm

/-- C9 counterexample: on a paragraph followed by a section heading, the
cleaned text (with no budget) violates the claimed whitespace
normalization — it contains three consecutive newlines.  (The blank-line
collapapse runs before line stripping, so a whitespace-only line adjacent
to a blank line merges into a longer newline run.) -/
theorem clean_whitespace_claim_counterexample :
    ¬(List.Chain' SpaceSep (clean paraThenHeading none) ∧
      noTripleNewline (clean paraThenHeading none) = true) := by
  intro hcl
  have := hcl.2
  rw [show clean paraThenHeading none = ("para\n\n\n## H").data from by decide]
    at this
  cases this

/-- C8 counterexample: a configured character budget of `0` is falsy in
`if self.max_chars and len(text) > self.max_chars`, so no truncation
happens and the output exceeds the budget. -/
theorem clean_budget_zero_counterexample :
    ¬((clean paraThenHeading (some 0)).length ≤ 0) := by decide

/-- C8 (corrected): for every parsed document and every *non-zero*
character budget, the text returned by `clean` has length at most the
budget. -/
theorem clean_length_le_budget (root : Node) (m : Nat) (hm : m ≠ 0) :
    (clean root (some m)).length ≤ m := by
  simp only [clean, applyMaxChars]
  split
  · rw [List.length_take]; omega
  · rename_i hcond
    rw [not_and_or, not_not, Nat.not_lt] at hcond
    rcases hcond with hc | hc
    · exact absurd hc hm
    · exact hc

/-- Witness for the C8 theorem: the example document cleaned under a
budget of 3 has length at most 3. -/
theorem clean_length_le_budget_witness :
    (clean paraThenHeading (some 3)).length ≤ 3 :=
  clean_length_le_budget paraThenHeading 3 (by decide)

/-! ## Configuration fingerprint (`backend/main.py`, lines 82–96)

`async_main` builds `config_for_hash` from `user_prompt`, the raw
`stage1`/`stage2`/`stage3`/`highlight` config sections (as loaded from
the YAML file) and the model name, and fingerprints it with
`hashlib.sha256(json.dumps(config_for_hash, sort_keys=True).encode())
.hexdigest()[:8]`.  We embed `json.dumps(..., sort_keys=True)` over a
JSON value tree (numbers carry the decimal text Python's serializer
emits for them) and implement SHA-256 itself (FIPS 180-4) over the
ASCII bytes, so the fingerprint can be computed inside the logic. -/

/-- Opening brace character (written via its code point). -/
def lbrace : Char := Char.ofNat 123

/-- Closing brace character (written via its code point). -/
def rbrace : Char := Char.ofNat 125

/-- A JSON value.  A number carries the decimal text `json.dumps` emits
for it (e.g. `0.5`, `8000`). -/
inductive Json where
  | null
  | str (s : Str)
  | num (text : Str)
  | arr (elems : List Json)
  | obj (fields : List (Str × Json))

/-- `json.dumps` escaping for the characters our configs can contain. -/
def escapeChar (c : Char) : Str :=
  if c = '"' ∨ c = '\\' then ['\\', c]
  else if c = '\n' then ['\\', 'n']
  else if c = '\t' then ['\\', 't']
  else if c = '\r' then ['\\', 'r']
  else [c]

/-- A JSON string literal: quoted and escaped. -/
def jsonQuote (s : Str) : Str := '"' :: (s.flatMap escapeChar ++ ['"'])

/-- Lexicographic order on strings by code point — how Python sorts
`dict` keys under `sort_keys=True`. -/
def strLt : Str → Str → Bool
  | [], [] => false
  | [], _ :: _ => true
  | _ :: _, [] => false
  | a :: as, b :: bs => if a < b then true else if b < a then false else strLt as bs

/-- Insert into a key-sorted list of rendered fields. -/
def insertPair (p : Str × Str) : List (Str × Str) → List (Str × Str)
  | [] => [p]
  | q :: rest => if strLt p.1 q.1 then p :: q :: rest else q :: insertPair p rest

/-- Sort rendered fields by key (`sort_keys=True`). -/
def sortPairs : List (Str × Str) → List (Str × Str)
  | [] => []
  | p :: rest => insertPair p (sortPairs rest)

/-- Join rendered items with a separator (`json.dumps` uses `", "` and
`": "` as its default separators). -/
def joinSep (sep : Str) : List Str → Str
  | [] => []
  | [x] => x
  | x :: rest => x ++ (sep ++ joinSep sep rest)

mutual
/-- `json.dumps(value, sort_keys=True)`. -/
def dumps : Json → Str
  | .null => ("null").data
  | .str s => jsonQuote s
  | .num text => text
  | .arr es => '[' :: (joinSep ((", ").data) (dumpsList es) ++ [']'])
  | .obj fs =>
    lbrace ::
      (joinSep ((", ").data)
        ((sortPairs (dumpsFields fs)).map
          (fun kv => jsonQuote kv.1 ++ ((": ").data ++ kv.2))) ++ [rbrace])
def dumpsList : List Json → List Str
  | [] => []
  | j :: rest => dumps j :: dumpsList rest
def dumpsFields : List (Str × Json) → List (Str × Str)
  | [] => []
  | kv :: rest => (kv.1, dumps kv.2) :: dumpsFields rest
end

/-- `config_for_hash` from `async_main`: user prompt, the four raw
config sections, and the model name. -/
def config_for_hash (userPrompt : Str)
    (stage1 stage2 stage3 highlight : Json) (model : Json) : Json :=
  .obj [((("user_prompt").data), .str userPrompt),
        ((("stage1").data), stage1),
        ((("stage2").data), stage2),
        ((("stage3").data), stage3),
        ((("highlight").data), highlight),
        ((("model").data), model)]

/-! ### SHA-256 (FIPS 180-4), executable over byte lists -/

/-- Truncate to a 32-bit word. -/
def w32 (n : Nat) : Nat := n % 4294967296

/-- Rotate a 32-bit word right by `n`. -/
def rotr (n x : Nat) : Nat := w32 ((x >>> n) ||| (x <<< (32 - n)))

/-- Bitwise complement of a 32-bit word. -/
def notW (x : Nat) : Nat := x ^^^ 4294967295

/-- SHA-256 `Ch`. -/
def shaCh (x y z : Nat) : Nat := (x &&& y) ^^^ (notW x &&& z)

/-- SHA-256 `Maj`. -/
def shaMaj (x y z : Nat) : Nat := (x &&& y) ^^^ (x &&& z) ^^^ (y &&& z)

/-- SHA-256 `Σ0`. -/
def bigSigma0 (x : Nat) : Nat := rotr 2 x ^^^ rotr 13 x ^^^ rotr 22 x

/-- SHA-256 `Σ1`. -/
def bigSigma1 (x : Nat) : Nat := rotr 6 x ^^^ rotr 11 x ^^^ rotr 25 x

/-- SHA-256 `σ0`. -/
def smallSigma0 (x : Nat) : Nat := rotr 7 x ^^^ rotr 18 x ^^^ (x >>> 3)

/-- SHA-256 `σ1`. -/
def smallSigma1 (x : Nat) : Nat := rotr 17 x ^^^ rotr 19 x ^^^ (x >>> 10)

/-- SHA-256 round constants (FIPS 180-4 §4.2.2, written in decimal). -/
def shaK : List Nat :=
  [1116352408, 1899447441, 3049323471, 3921009573, 961987163, 1508970993,
   2453635748, 2870763221, 3624381080, 310598401, 607225278, 1426881987,
   1925078388, 2162078206, 2614888103, 3248222580, 3835390401, 4022224774,
   264347078, 604807628, 770255983, 1249150122, 1555081692, 1996064986,
   2554220882, 2821834349, 2952996808, 3210313671, 3336571891, 3584528711,
   113926993, 338241895, 666307205, 773529912, 1294757372, 1396182291,
   1695183700, 1986661051, 2177026350, 2456956037, 2730485921, 2820302411,
   3259730800, 3345764771, 3516065817, 3600352804, 4094571909, 275423344,
   430227734, 506948616, 659060556, 883997877, 958139571, 1322822218,
   1537002063, 1747873779, 1955562222, 2024104815, 2227730452, 2361852424,
   2428436474, 2756734187, 3204031479, 3329325298]

/-- SHA-256 initial hash value (FIPS 180-4 §5.3.3, written in decimal). -/
def shaH0 : List Nat :=
  [1779033703, 3144134277, 1013904242, 2773480762, 1359893119, 2600822924,
   528734635, 1541459225]

/-- `k` bytes of `n`, big-endian. -/
def beBytes : Nat → Nat → List Nat
  | 0, _ => []
  | k + 1, n => beBytes k (n >>> 8) ++ [n &&& 255]

/-- Pad a byte message to a multiple of 64 bytes: `0x80`, zeros, and the
bit length in 8 big-endian bytes. -/
def padMessage (bytes : List Nat) : List Nat :=
  let L := bytes.length
  let padZeros := (64 - ((L + 9) % 64)) % 64
  bytes ++ 128 :: (List.replicate padZeros 0 ++ beBytes 8 (L * 8))

/-- Group bytes into 32-bit big-endian words. -/
def toWords : List Nat → List Nat
  | b0 :: b1 :: b2 :: b3 :: rest =>
    ((b0 <<< 24) ||| (b1 <<< 16) ||| (b2 <<< 8) ||| b3) :: toWords rest
  | _ => []

/-- Group words into 16-word blocks (`acc` holds the current block in
reverse). -/
def toBlocksAux : List Nat → List Nat → List (List Nat)
  | [], acc => if acc = [] then [] else [acc.reverse]
  | w :: rest, acc =>
    if acc.length = 15 then (w :: acc).reverse :: toBlocksAux rest []
    else toBlocksAux rest (w :: acc)

/-- Extend a 16-word block to the 64-word message schedule. -/
def extendWAux : Nat → List Nat → List Nat
  | 0, ws => ws
  | k + 1, ws =>
    let i := ws.length
    let w := w32 (ws.getD (i - 16) 0 + smallSigma0 (ws.getD (i - 15) 0) +
      ws.getD (i - 7) 0 + smallSigma1 (ws.getD (i - 2) 0))
    extendWAux k (ws ++ [w])

/-- One SHA-256 round: update the eight working variables with the
round constant and schedule word. -/
def compressStep (state : List Nat) (kw : Nat × Nat) : List Nat :=
  match state with
  | [a, b, c, d, e, f, g, h] =>
    let t1 := w32 (h + bigSigma1 e + shaCh e f g + kw.1 + kw.2)
    let t2 := w32 (bigSigma0 a + shaMaj a b c)
    [w32 (t1 + t2), a, b, c, w32 (d + t1), e, f, g]
  | s => s

/-- Compress one 16-word block into the running hash. -/
def compressBlock (hs : List Nat) (block : List Nat) : List Nat :=
  let ws := extendWAux 48 block
  let final := (shaK.zip ws).foldl compressStep hs
  (hs.zip final).map (fun p => w32 (p.1 + p.2))

/-- SHA-256 of a byte message, as eight 32-bit words. -/
def sha256Words (msg : List Nat) : List Nat :=
  (toBlocksAux (toWords (padMessage msg)) []).foldl compressBlock shaH0

/-- A lower-case hex digit. -/
def hexDigit (n : Nat) : Char :=
  if n < 10 then Char.ofNat (('0').toNat + n) else Char.ofNat (('a').toNat + n - 10)

/-- `k` hex digits of `n`, big-endian, zero-padded. -/
def toHexAux : Nat → Nat → Str
  | 0, _ => []
  | k + 1, n => toHexAux k (n >>> 4) ++ [hexDigit (n &&& 15)]

/-- `hashlib.sha256(...).hexdigest()` over a byte message. -/
def sha256hex (msg : List Nat) : Str :=
  ((sha256Words msg).map (toHexAux 8)).flatten

/-- `.encode()` for the ASCII strings the configuration contains. -/
def toBytes (s : Str) : List Nat := s.map Char.toNat

/-- The fingerprint computed in `async_main`:
`hashlib.sha256(json.dumps(config_for_hash, sort_keys=True).encode())
.hexdigest()[:8]`. -/
def config_hash (cfg : Json) : Str := (sha256hex (toBytes (dumps cfg))).take 8

/-- FIPS 180-4 test vector: SHA-256 of the empty message. -/
theorem sha256_empty_vector :
    sha256hex [] =
      ("e3b0c44298fc1c149afbf4c8996fb92427ae41e4649b934ca495991b7852b855").data := by
  decide

/-- A stage-1 YAML section with the given threshold text and temperature
`0.0`, as `async_main` reads it from the config file. -/
def stage1Cfg (threshold : Str) : Json :=
  .obj [((("threshold").data), .num threshold),
        ((("temperature").data), .num (("0.0").data))]

/-- A concrete full run configuration, parameterized by the stage-1
threshold text: stage-2/3 sections, highlight section and model are the
repository defaults. -/
def exampleConfig (threshold1 : Str) : Json :=
  config_for_hash (("agents").data)
    (stage1Cfg threshold1)
    (.obj [((("threshold").data), .num (("0.7").data)),
           ((("temperature").data), .num (("0.1").data))])
    (.obj [((("threshold").data), .num (("0.8").data)),
           ((("temperature").data), .num (("0.3").data)),
           ((("max_text_chars").data), .num (("8000").data))])
    (.obj [((("temperature").data), .num (("0.0").data))])
    (.str (("deepseek-chat").data))

/-- Everything `json.dumps(config_for_hash, sort_keys=True)` emits
before the stage-1 threshold text. -/
def cfgSerializedPrefix : Str :=
  ("\x7b\"highlight\": \x7b\"temperature\": 0.0\x7d, \"model\": \"deepseek-chat\", \"stage1\": \x7b\"temperature\": 0.0, \"threshold\": ").data

/-- Everything `json.dumps(config_for_hash, sort_keys=True)` emits
after the stage-1 threshold text. -/
def cfgSerializedSuffix : Str :=
  ("\x7d, \"stage2\": \x7b\"temperature\": 0.1, \"threshold\": 0.7\x7d, \"stage3\": \x7b\"max_text_chars\": 8000, \"temperature\": 0.3, \"threshold\": 0.8\x7d, \"user_prompt\": \"agents\"\x7d").data

set_option maxRecDepth 100000 in
/-- The serialized configuration splits around the stage-1 threshold
text: the keys are sorted, so the threshold is the last field of the
`stage1` object, between a fixed prefix and a fixed suffix. -/
theorem dumps_exampleConfig (t : Str) :
    dumps (exampleConfig t) =
      cfgSerializedPrefix ++ (t ++ cfgSerializedSuffix) := by
  simp only [exampleConfig, config_for_hash, stage1Cfg, dumps, dumpsFields,
    sortPairs, insertPair, strLt, joinSep, jsonQuote,
    cfgSerializedPrefix, cfgSerializedSuffix, List.append_assoc,
    List.cons_append, List.nil_append]
  with_unfolding_all rfl

/-- Cross-check against `hashlib`: the fingerprint of the concrete
configuration with stage-1 threshold 0.5. -/
theorem config_hash_example_value :
    config_hash (exampleConfig (("0.5").data)) = ("44d7814d").data := by
  decide

/-- C1 counterexample: two run configurations that differ **only** in
the stage-1 threshold (0.5 vs 0.6; prompt, model, temperatures and all
other sections identical) produce **different** fingerprints — the
per-stage thresholds are part of the hashed configuration, contrary to
the claim. -/
theorem config_hash_differs_on_threshold_change :
    config_hash (exampleConfig (("0.5").data)) ≠
      config_hash (exampleConfig (("0.6").data)) := by
  decide

/-- C1 (corrected): the fingerprint input includes the per-stage
thresholds.  Any two configurations that differ only in the stage-1
threshold text have different serialized hash preimages, and for the
concrete thresholds 0.5 vs 0.6 the truncated SHA-256 fingerprints
themselves differ. -/
theorem config_fingerprint_includes_threshold :
    (∀ t1 t2 : Str, t1 ≠ t2 →
      dumps (exampleConfig t1) ≠ dumps (exampleConfig t2)) ∧
    config_hash (exampleConfig (("0.5").data)) ≠
      config_hash (exampleConfig (("0.6").data)) := by
  constructor
  · intro t1 t2 hne heq
    rw [dumps_exampleConfig, dumps_exampleConfig] at heq
    exact hne (List.append_cancel_right (List.append_cancel_left heq))
  · decide

/-- Witness for the C1 theorem: the serialized preimages for thresholds
0.5 and 0.6 differ. -/
theorem config_fingerprint_includes_threshold_witness :
    dumps (exampleConfig (("0.5").data)) ≠ dumps (exampleConfig (("0.6").data)) :=
  config_fingerprint_includes_threshold.1 (("0.5").data) (("0.6").data)
    (by decide)

end ArxivDigest
